import Mathlib

/-!
Verification of the subscription-plan registry state machine implemented in
`src/components/PricingManagement.jsx`.

The component keeps three pieces of React state: `plans` (the registry, an
ordered array of plan records), `editingPlan` (the working copy of the plan
currently being edited, or `null`), and `showAddPlan` (a boolean flag for the
add-plan form).  All seven event handlers are pure functions of that state,
so we embed the state as a Lean structure and each handler as a function on
it.  JavaScript numbers used for prices are modelled as `Rat` (only copying
and comparison occur, never arithmetic), ids and counts as `Int`/`Nat`, and
the icon component reference as an opaque `String` name.
-/

/-- One subscription plan record, as stored in the `plans` array
(`PricingManagement.jsx`, lines 56-96).  The `icon` field holds a React
component in the source; only its identity matters here, so it is modelled
by an opaque name. -/
structure Plan where
  id : Int
  name : String
  description : String
  monthlyPrice : Rat
  yearlyPrice : Rat
  features : List String
  maxApps : Int
  isActive : Bool
  subscribers : Nat
  icon : String
  color : String
  deriving Repr, DecidableEq

/-- The component state of `PricingManagement`: the `plans` registry, the
nullable `editingPlan` working copy, and the `showAddPlan` flag. -/
structure PMState where
  plans : List Plan
  editingPlan : Option Plan
  showAddPlan : Bool
  deriving Repr, DecidableEq

/-- Errors a handler can raise at runtime, plus the error kinds named by the
specification so that its claims can be stated.  The only one the code ever
produces is `typeError` (a null dereference). -/
inductive JsError where
  | typeError (msg : String)
  | validationError (msg : String)
  | notFoundError (msg : String)
  | indexError (msg : String)
  deriving Repr, DecidableEq

/-- Handler `handleEditPlan(plan)` (lines 106-108): `setEditingPlan({ ...plan })`.
The argument is the plan object itself, not an id; the handler performs no
lookup and unconditionally overwrites the session slot with a shallow clone
(a value copy in this embedding). -/
def handleEditPlan (st : PMState) (plan : Plan) : PMState :=
  { st with editingPlan := some plan }

/-- Handler `handleSavePlan()` (lines 114-119):
`setPlans(plans.map(plan => plan.id === editingPlan.id ? editingPlan : plan));
setEditingPlan(null)`.
When `editingPlan` is `null`, the `map` callback dereferences
`editingPlan.id` and throws a `TypeError` — unless `plans` is empty, in
which case `Array.prototype.map` never invokes the callback and both state
updates run. -/
def handleSavePlan (st : PMState) : Except JsError PMState :=
  match st.editingPlan with
  | some e =>
      .ok { st with
              plans := st.plans.map (fun plan =>
                if plan.id = e.id then e else plan),
              editingPlan := none }
  | none =>
      match st.plans with
      | [] => .ok { st with plans := [], editingPlan := none }
      | _ :: _ => .error (.typeError "Cannot read properties of null (reading id)")

/-- Handler `handleCancelEdit()` (lines 125-127): `setEditingPlan(null)`. -/
def handleCancelEdit (st : PMState) : PMState :=
  { st with editingPlan := none }

/-- Handler `handleDeletePlan(planId)` (lines 133-137): guarded by
`window.confirm(...)`; when confirmed,
`setPlans(plans.filter(plan => plan.id !== planId))`.  The confirmation
answer is passed in as a boolean. -/
def handleDeletePlan (st : PMState) (confirmed : Bool) (planId : Int) : PMState :=
  if confirmed then
    { st with plans := st.plans.filter (fun plan => plan.id ≠ planId) }
  else st

/-- Handler `handleTogglePlan(planId)` (lines 143-147):
`setPlans(plans.map(plan => plan.id === planId ? { ...plan, isActive: !plan.isActive } : plan))`. -/
def handleTogglePlan (st : PMState) (planId : Int) : PMState :=
  { st with plans := st.plans.map (fun plan =>
      if plan.id = planId then { plan with isActive := !plan.isActive } else plan) }

/-- Handler `addFeature(planId, feature)` (lines 154-161): appends to the working
copy's feature list when a session is open for `planId`; otherwise a no-op. -/
def addFeature (st : PMState) (planId : Int) (feature : String) : PMState :=
  match st.editingPlan with
  | some e =>
      if e.id = planId then
        { st with editingPlan := some { e with features := e.features ++ [feature] } }
      else st
  | none => st

/-- The callback of `removeFeature`:
`features.filter((_, index) => index !== featureIndex)` keeps every element
whose position differs from `featureIndex` (compared as JavaScript numbers,
so the index may be any integer). -/
def filterOutIndex (xs : List String) (featureIndex : Int) : List String :=
  (xs.enum.filter (fun p => (p.1 : Int) ≠ featureIndex)).map Prod.snd

/-- Handler `removeFeature(planId, featureIndex)` (lines 168-175): filters the
working copy's feature list when a session is open for `planId`; otherwise a
no-op.  `Array.prototype.filter` never throws, whatever the index. -/
def removeFeature (st : PMState) (planId : Int) (featureIndex : Int) : PMState :=
  match st.editingPlan with
  | some e =>
      if e.id = planId then
        { st with editingPlan := some { e with features := filterOutIndex e.features featureIndex } }
      else st
  | none => st

/-- The edit affordance in the rendered UI (lines 259, 294-302): the edit
button exists only on cards of plans in `plans`, and clicking the one for
`plan` invokes `handleEditPlan(plan)`.  So "begin editing the plan with id
`planId`" finds that plan and hands it to `handleEditPlan`; for an absent id
there is no button and nothing happens. -/
def beginEdit (st : PMState) (planId : Int) : PMState :=
  match st.plans.find? (fun p => p.id = planId) with
  | some p => handleEditPlan st p
  | none => st

/-- The initial `plans` state (lines 56-96). -/
def initialPlans : List Plan :=
  [ { id := 1
    , name := "الخطة الأساسية"
    , description := "مثالية للأفراد والشركات الصغيرة"
    , monthlyPrice := 19.99
    , yearlyPrice := 16.99
    , features := ["تطبيق دردشة واحد", "تخصيص أساسي", "دعم عبر البريد الإلكتروني"]
    , maxApps := 1
    , isActive := true
    , subscribers := 1250
    , icon := "Star"
    , color := "blue" }
  , { id := 2
    , name := "الخطة الاحترافية"
    , description := "مثالية للشركات النامية"
    , monthlyPrice := 29.99
    , yearlyPrice := 24.99
    , features := ["5 تطبيقات دردشة", "تخصيص متقدم", "دعم ذو أولوية", "لوحة تحكم للتحليلات"]
    , maxApps := 5
    , isActive := true
    , subscribers := 850
    , icon := "Crown"
    , color := "purple" }
  , { id := 3
    , name := "الخطة الماسية"
    , description := "للشركات الكبيرة والمستخدمين المتقدمين"
    , monthlyPrice := 36.99
    , yearlyPrice := 33.99
    , features := ["تطبيقات غير محدودة", "تخصيص كامل", "دعم 24/7", "تحليلات متقدمة", "علامة بيضاء"]
    , maxApps := -1
    , isActive := true
    , subscribers := 250
    , icon := "Gem"
    , color := "amber" } ]

/-- The initial component state: the three hardcoded plans, no edit session,
add-plan form hidden (lines 56-100). -/
def initialState : PMState :=
  { plans := initialPlans, editingPlan := none, showAddPlan := false }

/-- One user-level operation on the component state, covering every handler
of the component. -/
inductive Op where
  | edit (plan : Plan)
  | save
  | cancel
  | delete (confirmed : Bool) (planId : Int)
  | toggle (planId : Int)
  | addFeat (planId : Int) (feature : String)
  | removeFeat (planId : Int) (featureIndex : Int)
  deriving Repr

/-- Apply one operation.  A `save` that throws (null session dereference)
leaves the React state untouched, since the exception aborts the event
handler before any state setter runs. -/
def applyOp (st : PMState) : Op → PMState
  | .edit plan => handleEditPlan st plan
  | .save =>
      match handleSavePlan st with
      | .ok st2 => st2
      | .error _ => st
  | .cancel => handleCancelEdit st
  | .delete confirmed planId => handleDeletePlan st confirmed planId
  | .toggle planId => handleTogglePlan st planId
  | .addFeat planId feature => addFeature st planId feature
  | .removeFeat planId featureIndex => removeFeature st planId featureIndex

/-- Run a sequence of operations from a state. -/
def runOps (st : PMState) (ops : List Op) : PMState :=
  ops.foldl applyOp st

/-- The ordered list of plan ids in the registry. -/
def registryIds (st : PMState) : List Int := st.plans.map Plan.id

/-- A concrete one-plan registry used to witness the theorems below. -/
def planW : Plan :=
  { id := 1, name := "Basic", description := "starter", monthlyPrice := 19.99,
    yearlyPrice := 16.99, features := ["A", "B"], maxApps := 1, isActive := true,
    subscribers := 10, icon := "Star", color := "blue" }

/-- A concrete component state with one plan and no open session. -/
def stW : PMState := { plans := [planW], editingPlan := none, showAddPlan := false }

/-- C2: for every registry and every plan id present in it, `handleEditPlan`
on that plan immediately followed by `handleCancelEdit` leaves the whole
`plans` array (in particular the entry for that id) exactly as it was, and
leaves no edit session open. -/
theorem beginEdit_cancel_registry_unchanged (st : PMState) (planId : Int)
    (hp : ∃ p ∈ st.plans, p.id = planId) :
    (handleCancelEdit (beginEdit st planId)).plans = st.plans ∧
    (handleCancelEdit (beginEdit st planId)).editingPlan = none := by
  unfold beginEdit handleEditPlan handleCancelEdit
  cases st.plans.find? (fun p => p.id = planId) <;> simp

/-- Witness for C2 at the concrete one-plan state. -/
theorem beginEdit_cancel_registry_unchanged_witness :
    (handleCancelEdit (beginEdit stW 1)).plans = stW.plans ∧
    (handleCancelEdit (beginEdit stW 1)).editingPlan = none :=
  beginEdit_cancel_registry_unchanged stW 1 ⟨planW, by simp [stW], rfl⟩

/-- C7: for every registry and every plan id present in it, toggling the
plan's active flag twice restores the entire component state. -/
theorem toggle_twice_restores (st : PMState) (planId : Int)
    (hp : ∃ p ∈ st.plans, p.id = planId) :
    handleTogglePlan (handleTogglePlan st planId) planId = st := by
  have hf : ∀ p : Plan,
      (if ((if p.id = planId then { p with isActive := !p.isActive } else p) : Plan).id = planId
        then { ((if p.id = planId then { p with isActive := !p.isActive } else p) : Plan) with
                isActive := !((if p.id = planId then { p with isActive := !p.isActive } else p) : Plan).isActive }
        else ((if p.id = planId then { p with isActive := !p.isActive } else p) : Plan)) = p := by
    intro p
    by_cases h : p.id = planId
    · cases p with
      | mk id name description mp yp feats ma act subs icon color => simp_all [Bool.not_not]
    · simp [h]
  clear hp
  cases st with
  | mk plans editing showA =>
    simp only [handleTogglePlan]
    congr 1
    induction plans with
    | nil => rfl
    | cons p ps ih =>
      simp only [List.map_cons, List.cons.injEq]
      exact ⟨hf p, ih⟩

/-- Witness for C7 at the concrete one-plan state. -/
theorem toggle_twice_restores_witness :
    handleTogglePlan (handleTogglePlan stW 1) 1 = stW :=
  toggle_twice_restores stW 1 ⟨planW, by simp [stW], rfl⟩

/-- C8: deleting an id that is absent from the registry leaves the component
state unchanged, whether or not the user confirms. -/
theorem delete_absent_id_noop (st : PMState) (confirmed : Bool) (planId : Int)
    (hp : ∀ p ∈ st.plans, p.id ≠ planId) :
    handleDeletePlan st confirmed planId = st := by
  have hfilter : st.plans.filter (fun plan => plan.id ≠ planId) = st.plans :=
    List.filter_eq_self.mpr (fun p hpmem => by simpa using hp p hpmem)
  unfold handleDeletePlan
  cases confirmed
  · rfl
  · show { st with plans := st.plans.filter (fun plan => plan.id ≠ planId) } = st
    rw [hfilter]

/-- Witness for C8 at the concrete one-plan state (id 2 is absent). -/
theorem delete_absent_id_noop_witness :
    handleDeletePlan stW true 2 = stW :=
  delete_absent_id_noop stW true 2 (by simp [stW, planW])

/-- The working copy used to witness the commit theorems: the concrete plan
with its name changed in the edit session. -/
def planWEdited : Plan := { planW with name := "BasicEdited" }

/-- A concrete component state whose edit session holds `planWEdited`. -/
def stEditing : PMState :=
  { plans := [planW], editingPlan := some planWEdited, showAddPlan := false }

/-- C1: with an edit session open on working copy `e`, `handleSavePlan`
succeeds, closes the session (so `handleCancelEdit` afterwards is a no-op),
keeps the registry's length, rewrites every entry whose id equals `e.id` to
the working copy, and leaves every entry with a different id untouched. -/
theorem commitEdit_replaces_and_closes (st : PMState) (e : Plan)
    (h : st.editingPlan = some e) :
    ∃ st2, handleSavePlan st = Except.ok st2 ∧
      st2.editingPlan = none ∧
      handleCancelEdit st2 = st2 ∧
      ∃ hlen : st.plans.length = st2.plans.length,
        ∀ i : Fin st.plans.length,
          ((st.plans.get i).id = e.id → st2.plans.get (Fin.cast hlen i) = e) ∧
          ((st.plans.get i).id ≠ e.id → st2.plans.get (Fin.cast hlen i) = st.plans.get i) := by
  refine ⟨{ st with
      plans := st.plans.map (fun plan => if plan.id = e.id then e else plan),
      editingPlan := none }, by simp [handleSavePlan, h], rfl, rfl,
      (List.length_map st.plans _).symm, fun i => ?_⟩
  have hget : (st.plans.map (fun plan => if plan.id = e.id then e else plan)).get
        (Fin.cast (List.length_map st.plans _).symm i)
      = if (st.plans.get i).id = e.id then e else st.plans.get i := by
    simp [List.get_eq_getElem, List.getElem_map]
  constructor
  · intro hid
    rw [hget, if_pos hid]
  · intro hid
    rw [hget, if_neg hid]

/-- Witness for C1: at the concrete editing state, save succeeds and the
session closes. -/
theorem commitEdit_replaces_and_closes_witness :
    stEditing.editingPlan = some planWEdited ∧
    ∃ st2, handleSavePlan stEditing = Except.ok st2 ∧ st2.editingPlan = none := by
  refine ⟨rfl, ?_⟩
  obtain ⟨st2, h1, h2, _⟩ := commitEdit_replaces_and_closes stEditing planWEdited rfl
  exact ⟨st2, h1, h2⟩

/-- C10: `handleTogglePlan` leaves the edit session and the add-plan flag
unchanged, preserves the registry's length and order, keeps every field of
every entry except `isActive`, and keeps `isActive` itself on every entry
whose id differs from the toggled one. -/
theorem toggle_frame (st : PMState) (planId : Int) :
    (handleTogglePlan st planId).editingPlan = st.editingPlan ∧
    (handleTogglePlan st planId).showAddPlan = st.showAddPlan ∧
    ∃ hlen : st.plans.length = (handleTogglePlan st planId).plans.length,
      ∀ i : Fin st.plans.length,
        ((handleTogglePlan st planId).plans.get (Fin.cast hlen i)).id = (st.plans.get i).id ∧
        ((handleTogglePlan st planId).plans.get (Fin.cast hlen i)).name = (st.plans.get i).name ∧
        ((handleTogglePlan st planId).plans.get (Fin.cast hlen i)).description = (st.plans.get i).description ∧
        ((handleTogglePlan st planId).plans.get (Fin.cast hlen i)).monthlyPrice = (st.plans.get i).monthlyPrice ∧
        ((handleTogglePlan st planId).plans.get (Fin.cast hlen i)).yearlyPrice = (st.plans.get i).yearlyPrice ∧
        ((handleTogglePlan st planId).plans.get (Fin.cast hlen i)).features = (st.plans.get i).features ∧
        ((handleTogglePlan st planId).plans.get (Fin.cast hlen i)).maxApps = (st.plans.get i).maxApps ∧
        ((handleTogglePlan st planId).plans.get (Fin.cast hlen i)).subscribers = (st.plans.get i).subscribers ∧
        ((handleTogglePlan st planId).plans.get (Fin.cast hlen i)).icon = (st.plans.get i).icon ∧
        ((handleTogglePlan st planId).plans.get (Fin.cast hlen i)).color = (st.plans.get i).color ∧
        ((st.plans.get i).id ≠ planId →
          ((handleTogglePlan st planId).plans.get (Fin.cast hlen i)).isActive = (st.plans.get i).isActive) := by
  refine ⟨rfl, rfl, (List.length_map st.plans _).symm, fun i => ?_⟩
  have hget : (handleTogglePlan st planId).plans.get
        (Fin.cast (List.length_map st.plans _).symm i)
      = if (st.plans.get i).id = planId
        then { st.plans.get i with isActive := !(st.plans.get i).isActive }
        else st.plans.get i := by
    simp [handleTogglePlan, List.get_eq_getElem, List.getElem_map]
  rw [hget]
  by_cases hid : (st.plans.get i).id = planId
  · rw [if_pos hid]
    exact ⟨rfl, rfl, rfl, rfl, rfl, rfl, rfl, rfl, rfl, rfl, fun hne => absurd hid hne⟩
  · rw [if_neg hid]
    exact ⟨rfl, rfl, rfl, rfl, rfl, rfl, rfl, rfl, rfl, rfl, fun _ => rfl⟩

/-- Witness exercising C10 at the concrete one-plan state, discharging the
inner hypothesis with an index whose plan id differs from the toggled id. -/
theorem toggle_frame_witness :
    ((handleTogglePlan stW 2).plans.get ⟨0, by decide⟩).isActive
      = (stW.plans.get ⟨0, by decide⟩).isActive := by
  obtain ⟨-, -, hlen, hall⟩ := toggle_frame stW 2
  obtain ⟨-, -, -, -, -, -, -, -, -, -, hact⟩ := hall ⟨0, by decide⟩
  exact hact (by decide)

/-- A committed save never changes the list of registry ids: the map only
substitutes the working copy at positions whose id already equals its own. -/
theorem applyOp_save_ids (st : PMState) :
    registryIds (applyOp st Op.save) = registryIds st := by
  cases he : st.editingPlan with
  | some e =>
      have hstep : applyOp st Op.save
          = { st with
                plans := st.plans.map (fun plan => if plan.id = e.id then e else plan),
                editingPlan := none } := by
        simp [applyOp, handleSavePlan, he]
      rw [hstep]
      simp only [registryIds, List.map_map]
      apply List.map_congr_left
      intro p hp2
      by_cases h : p.id = e.id
      · simp [h]
      · simp [h]
  | none =>
      cases hp : st.plans with
      | nil =>
          have hstep : applyOp st Op.save = { st with plans := [], editingPlan := none } := by
            simp [applyOp, handleSavePlan, he, hp]
          rw [hstep]
          simp [registryIds, hp]
      | cons q qs =>
          have hstep : applyOp st Op.save = st := by
            simp [applyOp, handleSavePlan, he, hp]
          rw [hstep]

/-- Toggling preserves the list of registry ids. -/
theorem handleTogglePlan_ids (st : PMState) (planId : Int) :
    registryIds (handleTogglePlan st planId) = registryIds st := by
  simp only [handleTogglePlan, registryIds, List.map_map]
  apply List.map_congr_left
  intro p hp
  by_cases h : p.id = planId
  · simp [h]
  · simp [h]

/-- The handler `addFeature` never touches the registry. -/
theorem addFeature_plans (st : PMState) (planId : Int) (feature : String) :
    (addFeature st planId feature).plans = st.plans := by
  unfold addFeature
  cases he : st.editingPlan with
  | none => rfl
  | some e =>
      by_cases h : e.id = planId
      · simp [h]
      · simp [h]

/-- The handler `removeFeature` never touches the registry. -/
theorem removeFeature_plans (st : PMState) (planId : Int) (featureIndex : Int) :
    (removeFeature st planId featureIndex).plans = st.plans := by
  unfold removeFeature
  cases he : st.editingPlan with
  | none => rfl
  | some e =>
      by_cases h : e.id = planId
      · simp [h]
      · simp [h]

/-- Deleting produces a sublist of the registry ids. -/
theorem handleDeletePlan_ids_sublist (st : PMState) (confirmed : Bool) (planId : Int) :
    (registryIds (handleDeletePlan st confirmed planId)).Sublist (registryIds st) := by
  unfold handleDeletePlan
  cases confirmed
  · exact List.Sublist.refl _
  · simp only [if_pos, registryIds]
    exact List.Sublist.map Plan.id (List.filter_sublist st.plans)

/-- Every operation preserves pairwise-distinct registry ids. -/
theorem applyOp_preserves_nodup (st : PMState) (op : Op)
    (h : (registryIds st).Nodup) : (registryIds (applyOp st op)).Nodup := by
  cases op with
  | edit p => simpa [applyOp, handleEditPlan, registryIds] using h
  | save => rw [applyOp_save_ids]; exact h
  | cancel => simpa [applyOp, handleCancelEdit, registryIds] using h
  | delete c pid =>
      exact List.Nodup.sublist (handleDeletePlan_ids_sublist st c pid) h
  | toggle pid =>
      have : registryIds (applyOp st (Op.toggle pid)) = registryIds st :=
        handleTogglePlan_ids st pid
      rw [this]; exact h
  | addFeat pid f =>
      simpa [registryIds, applyOp, addFeature_plans] using h
  | removeFeat pid i =>
      simpa [registryIds, applyOp, removeFeature_plans] using h

/-- C3: in every state reachable from the initial three-plan state by any
sequence of the component's operations, the registry ids are pairwise
distinct. -/
theorem reachable_registry_ids_nodup (ops : List Op) :
    (registryIds (runOps initialState ops)).Nodup := by
  have general : ∀ (l : List Op) (st : PMState),
      (registryIds st).Nodup → (registryIds (runOps st l)).Nodup := by
    intro l
    induction l with
    | nil => intro st h; exact h
    | cons op rest ih =>
        intro st h
        exact ih (applyOp st op) (applyOp_preserves_nodup st op h)
  exact general ops initialState (by decide)

/-- A working copy with an empty name and a negative monthly price (the
spec's examples of invalid fields). -/
def planInvalid : Plan :=
  { id := 1, name := "", description := "", monthlyPrice := -5, yearlyPrice := 0,
    features := [], maxApps := 1, isActive := true, subscribers := 0,
    icon := "Star", color := "blue" }

/-- A concrete component state whose open edit session holds the invalid
working copy. -/
def stInvalidEditing : PMState :=
  { plans := [planW], editingPlan := some planInvalid, showAddPlan := false }

/-- C4 counterexample: with an open session whose working copy has an empty
name and a negative monthly price, `handleSavePlan` does not fail — it
returns normally, commits the invalid copy into the registry (changing it),
and closes the session. -/
theorem commit_no_validation_counterexample :
    planInvalid.name = "" ∧ planInvalid.monthlyPrice < 0 ∧
    stInvalidEditing.editingPlan = some planInvalid ∧
    handleSavePlan stInvalidEditing
      = Except.ok { plans := [planInvalid], editingPlan := none, showAddPlan := false } ∧
    [planInvalid] ≠ stInvalidEditing.plans := by
  refine ⟨rfl, by decide, rfl, rfl, by decide⟩

/-- C4 amended: `handleSavePlan` performs no validation.  Whenever a session
is open — even on a working copy with an empty name or a negative monthly
price whose id occurs in the registry — it succeeds, closes the session, and
the invalid working copy ends up in the registry. -/
theorem commit_ignores_validation (st : PMState) (e : Plan)
    (h : st.editingPlan = some e) (hbad : e.name = "" ∨ e.monthlyPrice < 0)
    (hmem : ∃ p ∈ st.plans, p.id = e.id) :
    ∃ st2, handleSavePlan st = Except.ok st2 ∧ st2.editingPlan = none ∧ e ∈ st2.plans := by
  refine ⟨{ st with
      plans := st.plans.map (fun plan => if plan.id = e.id then e else plan),
      editingPlan := none }, by simp [handleSavePlan, h], rfl, ?_⟩
  obtain ⟨p, hpmem, hpid⟩ := hmem
  exact List.mem_map.mpr ⟨p, hpmem, by simp [hpid]⟩

/-- Witness for the amended C4 at the concrete invalid-session state. -/
theorem commit_ignores_validation_witness :
    stInvalidEditing.editingPlan = some planInvalid ∧
    (planInvalid.name = "" ∨ planInvalid.monthlyPrice < 0) ∧
    (∃ p ∈ stInvalidEditing.plans, p.id = planInvalid.id) ∧
    ∃ st2, handleSavePlan stInvalidEditing = Except.ok st2 ∧
      st2.editingPlan = none ∧ planInvalid ∈ st2.plans :=
  ⟨rfl, Or.inl rfl, ⟨planW, by simp [stInvalidEditing], rfl⟩,
    commit_ignores_validation stInvalidEditing planInvalid rfl (Or.inl rfl)
      ⟨planW, by simp [stInvalidEditing], rfl⟩⟩

/-- A concrete plan whose feature list is `["A", "B"]`, as in the spec's
out-of-bounds scenario. -/
def planFeat : Plan :=
  { id := 1, name := "P", description := "d", monthlyPrice := 1, yearlyPrice := 1,
    features := ["A", "B"], maxApps := 1, isActive := true, subscribers := 0,
    icon := "Star", color := "blue" }

/-- A concrete component state with an open session on `planFeat`. -/
def stFeatEditing : PMState :=
  { plans := [planFeat], editingPlan := some planFeat, showAddPlan := false }

/-- C5 counterexample: the spec's own scenario — session open for id 1 with
features `["A","B"]`, then `removeFeature(1, 5)`.  The call returns the
state unchanged: no failure of any kind occurs (the embedded handler is a
total function mirroring `Array.prototype.filter`, which never throws). -/
theorem removeFeature_oob_counterexample :
    stFeatEditing.editingPlan = some planFeat ∧
    planFeat.features = ["A", "B"] ∧
    removeFeature stFeatEditing 1 5 = stFeatEditing := by
  refine ⟨rfl, rfl, by decide⟩

/-- Keeping every position of `enumFrom n xs` whose index differs from `j`
returns `xs` itself whenever `j` matches none of the indices. -/
theorem filter_enumFrom_oob (xs : List String) (n : Nat) (j : Int)
    (h : ∀ k : Nat, n ≤ k → k < n + xs.length → (k : Int) ≠ j) :
    ((xs.enumFrom n).filter (fun p => (p.1 : Int) ≠ j)).map Prod.snd = xs := by
  induction xs generalizing n with
  | nil => rfl
  | cons x xs ih =>
      have hx : ((n : Int)) ≠ j :=
        h n le_rfl (by simp only [List.length_cons]; omega)
      have hrest :=
        ih (n + 1) (fun k hk1 hk2 => h k (by omega) (by simp only [List.length_cons]; omega))
      show ((((n, x) :: xs.enumFrom (n + 1)).filter (fun p => (p.1 : Int) ≠ j)).map Prod.snd)
        = x :: xs
      rw [List.filter_cons, if_pos (by simp [hx]), List.map_cons, hrest]

/-- Applying `filterOutIndex` with an out-of-bounds index is the identity. -/
theorem filterOutIndex_oob (xs : List String) (j : Int)
    (h : j < 0 ∨ (xs.length : Int) ≤ j) : filterOutIndex xs j = xs := by
  unfold filterOutIndex
  have henum : xs.enum = xs.enumFrom 0 := rfl
  rw [henum]
  refine filter_enumFrom_oob xs 0 j ?_
  intro k hk1 hk2
  rcases h with h | h <;> omega

/-- C5 amended: with a session open, `removeFeature` at an out-of-bounds
index (negative, or at least the feature-list length) is a silent no-op: it
signals nothing and returns the component state unchanged, so the working
copy's feature list is untouched. -/
theorem removeFeature_oob_noop (st : PMState) (e : Plan) (planId featureIndex : Int)
    (h : st.editingPlan = some e)
    (hoob : featureIndex < 0 ∨ (e.features.length : Int) ≤ featureIndex) :
    removeFeature st planId featureIndex = st := by
  have hfe : filterOutIndex e.features featureIndex = e.features :=
    filterOutIndex_oob e.features featureIndex hoob
  cases st with
  | mk plans editing showA =>
    simp only at h
    subst h
    simp only [removeFeature, hfe]
    split <;> rfl

/-- Witness for the amended C5 at the spec's scenario (index 5, two
features). -/
theorem removeFeature_oob_noop_witness :
    stFeatEditing.editingPlan = some planFeat ∧
    ((5 : Int) < 0 ∨ ((planFeat.features.length : Int) ≤ 5)) ∧
    removeFeature stFeatEditing 1 5 = stFeatEditing :=
  ⟨rfl, Or.inr (by decide),
    removeFeature_oob_noop stFeatEditing planFeat 1 5 rfl (Or.inr (by decide))⟩

/-- A concrete registry holding only the plan with id 1 and no open session
(the spec's `beginEdit(2)` scenario). -/
def stOnlyOne : PMState :=
  { plans := [planFeat], editingPlan := none, showAddPlan := false }

/-- C6 counterexample: the spec's scenario — the registry holds only id 1
and editing id 2 is requested.  Nothing fails: there is no lookup and no
`NotFoundError`; the component state is simply unchanged (the UI renders no
edit button for an absent plan, and `handleEditPlan` itself takes the plan
object, never an id). -/
theorem beginEdit_absent_counterexample :
    stOnlyOne.plans.map Plan.id = [1] ∧ beginEdit stOnlyOne 2 = stOnlyOne := by
  exact ⟨by decide, by decide⟩

/-- C6 amended: editing an absent id is a silent no-op leaving the whole
component state (registry included) unchanged; editing a present id opens a
session holding a value copy of the first plan with that id, overwriting any
previously open session. -/
theorem beginEdit_lookup (st : PMState) (planId : Int) :
    ((∀ p ∈ st.plans, p.id ≠ planId) → beginEdit st planId = st) ∧
    (∀ p, st.plans.find? (fun q => q.id = planId) = some p →
        p ∈ st.plans ∧ p.id = planId ∧
        beginEdit st planId = { st with editingPlan := some p }) := by
  constructor
  · intro habs
    have hnone : st.plans.find? (fun q => q.id = planId) = none :=
      List.find?_eq_none.mpr (fun p hp => by simpa using habs p hp)
    unfold beginEdit
    rw [hnone]
  · intro p hfind
    refine ⟨List.mem_of_find?_eq_some hfind, by simpa using List.find?_some hfind, ?_⟩
    unfold beginEdit
    rw [hfind]
    rfl

/-- Witness for the amended C6: with only id 1 present, requesting id 2
changes nothing, and requesting id 1 opens a session on a copy of that
plan. -/
theorem beginEdit_lookup_witness :
    beginEdit stOnlyOne 2 = stOnlyOne ∧
    beginEdit stOnlyOne 1 = { stOnlyOne with editingPlan := some planFeat } :=
  ⟨(beginEdit_lookup stOnlyOne 2).1 (by decide),
   ((beginEdit_lookup stOnlyOne 1).2 planFeat (by decide)).2.2⟩

/-- The empty component state: no plans, no session. -/
def stEmptyNone : PMState :=
  { plans := [], editingPlan := none, showAddPlan := false }

/-- C9 counterexample: with `editingPlan` null but the registry empty,
`handleSavePlan` does NOT throw — `Array.prototype.map` on an empty array
never invokes its callback, so `editingPlan.id` is never dereferenced and
both state setters run, leaving the state equal to itself. -/
theorem save_null_empty_counterexample :
    stEmptyNone.editingPlan = none ∧
    handleSavePlan stEmptyNone = Except.ok stEmptyNone :=
  ⟨rfl, rfl⟩

/-- C9 amended: `handleSavePlan` throws a `TypeError` exactly when the
session is null AND the registry is non-empty; with a null session and an
empty registry it completes normally as a no-op, and with a session open it
never throws. -/
theorem save_null_session_behavior (st : PMState) :
    (st.editingPlan = none → st.plans = [] → handleSavePlan st = Except.ok st) ∧
    (st.editingPlan = none → st.plans ≠ [] →
        handleSavePlan st
          = Except.error (JsError.typeError "Cannot read properties of null (reading id)")) ∧
    (∀ e, st.editingPlan = some e → ∃ st2, handleSavePlan st = Except.ok st2) := by
  cases st with
  | mk plans editing showA =>
    refine ⟨?_, ?_, ?_⟩
    · intro h1 h2
      simp only at h1 h2
      subst h1; subst h2
      rfl
    · intro h1 h2
      simp only at h1 h2
      subst h1
      cases plans with
      | nil => exact absurd rfl h2
      | cons q qs => rfl
    · intro e he
      simp only at he
      subst he
      exact ⟨_, rfl⟩

/-- Witness for the amended C9 covering all three arms at concrete states:
empty registry with null session (no-op), non-empty registry with null
session (TypeError), and an open session (normal save). -/
theorem save_null_session_behavior_witness :
    handleSavePlan stEmptyNone = Except.ok stEmptyNone ∧
    handleSavePlan stOnlyOne
      = Except.error (JsError.typeError "Cannot read properties of null (reading id)") ∧
    ∃ st2, handleSavePlan stFeatEditing = Except.ok st2 :=
  ⟨(save_null_session_behavior stEmptyNone).1 rfl rfl,
   (save_null_session_behavior stOnlyOne).2.1 rfl (by simp [stOnlyOne]),
   (save_null_session_behavior stFeatEditing).2.2 planFeat rfl⟩
